import Mathlib

/-!
Verification model of the Kashmir vector database.

The repository contains two storage variants of the same design:

* namespace `Memory` models `vectorDB.go`: collections live in an in-process
  map from collection name to a `Collection` holding parallel
  `documents`/`vectors` slices.
* namespace `Pebble` models the persistent variant: documents are serialized
  under composite keys `"<collection>:<docID>"` in an ordered key-value store.

Modelling conventions: Go maps are association lists with unique keys;
Go `float64` arithmetic is modelled over `ℝ`; the external fallible embedding
function is a parameter of type `String → Except String (List ℝ)`; a Go
runtime panic (index out of range) is modelled by `Option`, with `none`
meaning the panic; functions that mutate state return the new state paired
with the Go `error` result (`Option GoError`, `none` = `nil`).
-/

/-- Go scalar metadata values (`map[string]interface{}` entries restricted to
the scalar payloads the design admits: string, number, boolean).  Go `!=` on
`interface{}` compares dynamic type and value, which coincides with decidable
equality on this sum; a missing map key yields Go `nil`, which equals none of
these values. -/
inductive GoValue where
  | str (s : String)
  | num (q : ℚ)
  | boolean (b : Bool)
deriving DecidableEq, Repr

/-- The Go `error` values produced by the two variants.  The persistent
`AddDocument` wraps the embedding error message; `embeddingFailed msg`
models the propagated error in both variants. -/
inductive GoError where
  | collectionNotFound
  | collectionAlreadyExists
  | documentAlreadyExists
  | collectionEmpty
  | embeddingFailed (msg : String)
deriving DecidableEq, Repr

/-- Model of Go `strings.ToLower`: per-character lowering (the repository only
works with ASCII metadata keys, where Go and `Char.toLower` agree). -/
def toLowerStr (s : String) : String := ⟨s.data.map Char.toLower⟩

/-- Accumulator loop of the Go `cosineSimilarity`: a single pass accumulating
the dot product and both squared magnitudes, exactly as the source `for` loop
does (`dotProduct`, `squaredMagnitudeA`, `squaredMagnitudeB`). -/
def cosLoop : List (ℝ × ℝ) → ℝ → ℝ → ℝ → ℝ × ℝ × ℝ
  | [], d, ma, mb => (d, ma, mb)
  | (x, y) :: rest, d, ma, mb => cosLoop rest (d + x * y) (ma + x * x) (mb + y * y)

/-- `cosineSimilarity(a, b)` from the source:
`dot / (sqrt(magA) * sqrt(magB))`.  The Go loop runs over `i < len(a)` and
reads `b[i]`; it panics when `b` is shorter than `a`, so this value is
meaningful only when `a.length ≤ b.length`, where `a.zip b` visits exactly the
index pairs the loop does (including the truncation of a longer `b`). -/
noncomputable def cosineSimilarity (a b : List ℝ) : ℝ :=
  let s := cosLoop (a.zip b) 0 0 0
  s.1 / (Real.sqrt s.2.1 * Real.sqrt s.2.2)

namespace Memory

/-- `Document` of `vectorDB.go`: ID, Text, Metadata — no embedding field. -/
structure Document where
  ID : String
  Text : String
  Metadata : List (String × GoValue)
deriving DecidableEq, Repr

/-- `Collection` of `vectorDB.go`: parallel slices of documents and vectors. -/
structure Collection where
  name : String
  documents : List Document
  vectors : List (List ℝ)

/-- `VectorDB.collections`: the Go map from collection name to its (pointer
to a) collection. -/
abbrev VectorDB := List (String × Collection)

/-- Replacing the collection stored under `name` models in-place mutation
through the Go map's `*Collection` pointer. -/
def setColl (db : VectorDB) (name : String) (c : Collection) : VectorDB :=
  db.map fun kc => if kc.1 = name then (name, c) else kc

/-- In-memory `AddDocument`: looks the collection up, appends the document
(text only, nil metadata) to `collection.documents`, THEN calls the embedding
function, and only on success appends to `collection.vectors`.  A failed
embedding call therefore leaves the appended document behind. -/
def AddDocument (embed : String → Except String (List ℝ)) (db : VectorDB)
    (collectionName docID text : String) : VectorDB × Option GoError :=
  match db.lookup collectionName with
  | none => (db, some GoError.collectionNotFound)
  | some collection =>
    let collection1 :=
      { collection with documents := collection.documents ++ [⟨docID, text, []⟩] }
    match embed text with
    | Except.error msg =>
      (setColl db collectionName collection1, some (GoError.embeddingFailed msg))
    | Except.ok embedding =>
      (setColl db collectionName
        { collection1 with vectors := collection1.vectors ++ [embedding] }, none)

/-- In-memory `AddDocumentWithMetadata`: same shape as `AddDocument`, with the
caller's metadata stored on the document.  The document is appended before the
embedding call here as well. -/
def AddDocumentWithMetadata (embed : String → Except String (List ℝ)) (db : VectorDB)
    (collectionName docID text : String) (metadata : List (String × GoValue)) :
    VectorDB × Option GoError :=
  match db.lookup collectionName with
  | none => (db, some GoError.collectionNotFound)
  | some collection =>
    let collection1 :=
      { collection with documents := collection.documents ++ [⟨docID, text, metadata⟩] }
    match embed text with
    | Except.error msg =>
      (setColl db collectionName collection1, some (GoError.embeddingFailed msg))
    | Except.ok embedding =>
      (setColl db collectionName
        { collection1 with vectors := collection1.vectors ++ [embedding] }, none)

/-- `matchesMetadataFilter` from `vectorDB.go` (the same helper also appears,
unused, in the persistent file): every filter entry must be present in the
metadata, with an equal value, under its exact — non-normalized — key. -/
def matchesMetadataFilter (metadata metadataFilter : List (String × GoValue)) : Bool :=
  metadataFilter.all fun kv =>
    match metadata.lookup kv.1 with
    | none => false
    | some v => v == kv.2

/-- The scan loop of the in-memory `findNearestNeighbor`: running maximum
starts at `-1.0` with nearest id `""` and is replaced only on strict `>`.
There is no length guard: when a stored vector is shorter than the query
vector, `cosineSimilarity` indexes past its end and the program panics
(modelled by `none`). -/
noncomputable def nnLoop (queryVec : List ℝ) :
    List (List ℝ × Document) → ℝ → String → Option String
  | [], _, nearestID => some nearestID
  | (vec, doc) :: rest, maxSim, nearestID =>
    if vec.length < queryVec.length then none
    else if maxSim < cosineSimilarity queryVec vec then
      nnLoop queryVec rest (cosineSimilarity queryVec vec) doc.ID
    else
      nnLoop queryVec rest maxSim nearestID

/-- In-memory `findNearestNeighbor`: an explicit error on an empty vector
slice, otherwise the scan loop over the index-paired vectors and documents
(the Go loop reads `documents[i]` for `i < len(vectors)`; the claims below
only use states with `len(documents) = len(vectors)`, where `zip` pairs
exactly as the source does). -/
noncomputable def findNearestNeighbor (queryVec : List ℝ) (vectors : List (List ℝ))
    (documents : List Document) : Option (Except GoError String) :=
  if vectors.length = 0 then some (Except.error GoError.collectionEmpty)
  else (nnLoop queryVec (vectors.zip documents) (-1) "").map Except.ok

end Memory

namespace Pebble

/-- `Document` of the persistent variant: ID, Text, Embedding, Metadata. -/
structure Document where
  ID : String
  Text : String
  Embedding : List ℝ
  Metadata : List (String × GoValue)

/-- The Pebble store, modelled as a key-unique association list from composite
keys `"<collection>:<docID>"` to documents; JSON (de)serialization of records
is modelled as the identity. -/
abbrev Store := List (String × Document)

/-- Go `strings.TrimRight(s, ":")`: remove all trailing colons. -/
def trimRightColons (s : String) : String :=
  ⟨(s.data.reverse.dropWhile fun c => c == ':').reverse⟩

/-- Byte-lexicographic order on keys, stated on the underlying character
lists (for the repository's keys this is exactly Go's byte order, and it is
definitionally `String.lt`). -/
def keyLt (a b : String) : Bool := decide (a.data < b.data)

/-- Key order, weak form: `a ≤ b` as `¬ b < a`, as for `String.le`. -/
def keyLe (a b : String) : Bool := !keyLt b a

/-- Persistent `CreateCollection`: scan the key range
`[name ++ ":", TrimRight(name, ":") ++ ";")` (lower bound inclusive, upper
exclusive, byte order); fail with the already-exists error if any key is
found, otherwise succeed.  The function never writes to the store, which the
return type (no new store) makes structural. -/
def CreateCollection (store : Store) (name : String) : Option GoError :=
  let lowerB := name ++ ":"
  let upperB := trimRightColons name ++ ";"
  if store.any (fun kd => keyLe lowerB kd.1 && keyLt kd.1 upperB) then
    some GoError.collectionAlreadyExists
  else
    none

/-- Persistent `AddDocument`: point-get on the composite key (an existing
record fails with the already-exists error and nothing is touched), then the
embedding call (a failure propagates the wrapped error and nothing is
written), and only then the durable `Set` of the full record. -/
def AddDocument (embed : String → Except String (List ℝ)) (store : Store)
    (collectionName docID text : String) (metadata : List (String × GoValue)) :
    Store × Option GoError :=
  let docKey := collectionName ++ ":" ++ docID
  match store.lookup docKey with
  | some _ => (store, some GoError.documentAlreadyExists)
  | none =>
    match embed text with
    | Except.error msg => (store, some (GoError.embeddingFailed msg))
    | Except.ok embedding =>
      (store ++ [(docKey, ⟨docID, text, embedding, metadata⟩)], none)

/-- Net effect of `Query`'s filter-normalization pass: every entry of the
caller's map is deleted and reinserted under its lower-cased key (stated for
filters whose lower-cased keys stay distinct, the only case in which the Go
map iteration with in-flight mutation is deterministic). -/
def normalizeFilter (f : List (String × GoValue)) : List (String × GoValue) :=
  f.map fun kv => (toLowerStr kv.1, kv.2)

/-- The inline metadata check of the persistent `Query` loop:
`doc.Metadata[strings.ToLower(key)] != value` rejects the document; a missing
key yields Go `nil`, which never equals a scalar filter value. -/
def queryMatches (docMeta f : List (String × GoValue)) : Bool :=
  f.all fun kv =>
    match docMeta.lookup (toLowerStr kv.1) with
    | none => false
    | some v => v == kv.2

/-- The `Query` iterator range `[p, p ++ 0xff)` where `p` is the collection
key namespace marker: since byte `0xff` occurs in no UTF-8 string, the keys
visited are exactly those starting with `p`, in ascending key order. -/
def scan (store : Store) (collectionName : String) : List (String × Document) :=
  (store.filter fun kd => kd.1.startsWith (collectionName ++ ":")).mergeSort
    fun x y => keyLe x.1 y.1

/-- Go's zero value `var matchingDoc Document`. -/
def zeroDoc : Document := ⟨"", "", [], []⟩

/-- The scan loop of the persistent `Query`: for each stored document apply
the metadata check, then the length guard
`len(queryVec) > 0 && len(queryVec) == len(doc.Embedding)`, then the strict
running-maximum update, starting from `-1.0` and the zero-value document. -/
noncomputable def queryLoop (queryVec : List ℝ) (nf : List (String × GoValue)) :
    List (String × Document) → ℝ → Document → Document
  | [], _, best => best
  | (_, doc) :: rest, maxSim, best =>
    if queryMatches doc.Metadata nf then
      if 0 < queryVec.length ∧ queryVec.length = doc.Embedding.length then
        if maxSim < cosineSimilarity queryVec doc.Embedding then
          queryLoop queryVec nf rest (cosineSimilarity queryVec doc.Embedding) doc
        else queryLoop queryVec nf rest maxSim best
      else queryLoop queryVec nf rest maxSim best
    else queryLoop queryVec nf rest maxSim best

/-- The persistent `Query`.  Besides the Go return values (best document and
error) it returns the final state of the caller's `metadataFilter` map, which
the Go code mutates in place — every key deleted and reinserted lower-cased —
after a successful embedding call and before the scan; on an embedding
failure the zero document, the error and the untouched map are returned. -/
noncomputable def Query (embed : String → Except String (List ℝ)) (store : Store)
    (collectionName queryText : String) (metadataFilter : List (String × GoValue)) :
    (Document × Option GoError) × List (String × GoValue) :=
  match embed queryText with
  | Except.error msg => ((zeroDoc, some (GoError.embeddingFailed msg)), metadataFilter)
  | Except.ok queryVec =>
    let nf := normalizeFilter metadataFilter
    ((queryLoop queryVec nf (scan store collectionName) (-1) zeroDoc, none), nf)

end Pebble

/-- Modelled from the spec's words, for comparison with the code: does any
stored key lie in the range `[name ++ ":", name ++ ";")` that the spec says
`CreateCollection` scans? -/
def specRangeHasKey (store : Pebble.Store) (name : String) : Bool :=
  store.any fun kd => Pebble.keyLe (name ++ ":") kd.1 && Pebble.keyLt kd.1 (name ++ ";")

theorem cosLoop_swap (l : List (ℝ × ℝ)) : ∀ d ma mb,
    cosLoop (l.map Prod.swap) d ma mb =
      ((cosLoop l d mb ma).1, (cosLoop l d mb ma).2.2, (cosLoop l d mb ma).2.1) := by
  induction l with
  | nil => intro d ma mb; rfl
  | cons p rest ih =>
    intro d ma mb
    obtain ⟨x, y⟩ := p
    show cosLoop (rest.map Prod.swap) (d + y * x) (ma + y * y) (mb + x * x) = _
    rw [ih, mul_comm y x]
    rfl

/-- C9: cosineSimilarity is symmetric on equal-length vectors. -/
theorem cosineSimilarity_symm (a b : List ℝ) (h : a.length = b.length) :
    cosineSimilarity a b = cosineSimilarity b a := by
  unfold cosineSimilarity
  rw [← List.zip_swap a b, cosLoop_swap]
  exact congrArg (fun z => (cosLoop (a.zip b) 0 0 0).1 / z)
    (mul_comm (Real.sqrt (cosLoop (a.zip b) 0 0 0).2.1) (Real.sqrt (cosLoop (a.zip b) 0 0 0).2.2))

/-- C9 witness. -/
theorem cosineSimilarity_symm_witness :
    cosineSimilarity [1, 2] [3, 4] = cosineSimilarity [3, 4] [1, 2] :=
  cosineSimilarity_symm _ _ rfl

theorem cos_self_one : cosineSimilarity [1] [1] = 1 := by
  show (0 + 1 * 1 : ℝ) / (Real.sqrt (0 + 1 * 1) * Real.sqrt (0 + 1 * 1)) = 1
  norm_num

theorem cos_antipodal : cosineSimilarity [1] [-1] = -1 := by
  show (0 + 1 * (-1) : ℝ) / (Real.sqrt (0 + 1 * 1) * Real.sqrt (0 + (-1) * (-1))) = -1
  norm_num

theorem nnLoop_all_le (queryVec : List ℝ) (l : List (List ℝ × Memory.Document)) :
    ∀ m b, (∀ p ∈ l, queryVec.length ≤ p.1.length) →
      (∀ p ∈ l, cosineSimilarity queryVec p.1 ≤ m) →
      Memory.nnLoop queryVec l m b = some b := by
  induction l with
  | nil => intro m b _ _; rfl
  | cons p rest ih =>
    intro m b hnp hle
    obtain ⟨vec, doc⟩ := p
    have h1 : ¬ vec.length < queryVec.length :=
      Nat.not_lt.mpr (hnp (vec, doc) (List.mem_cons_self _ _))
    have h2 : ¬ m < cosineSimilarity queryVec vec :=
      not_lt.mpr (hle (vec, doc) (List.mem_cons_self _ _))
    simp only [Memory.nnLoop, if_neg h1, if_neg h2]
    exact ih m b (fun q hq => hnp q (List.mem_cons_of_mem _ hq))
      (fun q hq => hle q (List.mem_cons_of_mem _ hq))

theorem nnLoop_argmax (queryVec : List ℝ) (l : List (List ℝ × Memory.Document)) :
    ∀ (i : ℕ) (hi : i < l.length) (m : ℝ) (b : String),
      (∀ p ∈ l, queryVec.length ≤ p.1.length) →
      m < cosineSimilarity queryVec (l.get ⟨i, hi⟩).1 →
      (∀ (j : ℕ) (hj : j < l.length),
        cosineSimilarity queryVec (l.get ⟨j, hj⟩).1 ≤
          cosineSimilarity queryVec (l.get ⟨i, hi⟩).1) →
      (∀ (j : ℕ) (hj : j < i),
        cosineSimilarity queryVec (l.get ⟨j, hj.trans hi⟩).1 <
          cosineSimilarity queryVec (l.get ⟨i, hi⟩).1) →
      Memory.nnLoop queryVec l m b = some (l.get ⟨i, hi⟩).2.ID := by
  induction l with
  | nil => intro i hi; exact absurd hi (Nat.not_lt_zero i)
  | cons p rest ih =>
    intro i hi m b hnp hm hmax hfirst
    obtain ⟨vec, doc⟩ := p
    have h1 : ¬ vec.length < queryVec.length :=
      Nat.not_lt.mpr (hnp (vec, doc) (List.mem_cons_self _ _))
    cases i with
    | zero =>
      simp only [List.get] at hm ⊢
      simp only [Memory.nnLoop, if_neg h1, if_pos hm]
      apply nnLoop_all_le
      · exact fun q hq => hnp q (List.mem_cons_of_mem _ hq)
      · intro q hq
        obtain ⟨⟨j, hj⟩, hq⟩ := List.mem_iff_get.mp hq
        have h2 := hmax (j + 1) (Nat.succ_lt_succ hj)
        rw [← hq]
        simpa [List.get] using h2
    | succ k =>
      have hk : k < rest.length := Nat.lt_of_succ_lt_succ hi
      have hm' : cosineSimilarity queryVec (((vec, doc) :: rest).get ⟨k + 1, hi⟩).1 =
          cosineSimilarity queryVec (rest.get ⟨k, hk⟩).1 := rfl
      by_cases hup : m < cosineSimilarity queryVec vec
      · simp only [Memory.nnLoop, if_neg h1, if_pos hup]
        have := ih k hk (cosineSimilarity queryVec vec) doc.ID
          (fun q hq => hnp q (List.mem_cons_of_mem _ hq))
          (by
            have h0 := hfirst 0 (Nat.succ_pos k)
            simpa [List.get] using h0)
          (fun j hj => by
            have := hmax (j + 1) (Nat.succ_lt_succ hj)
            simpa [List.get] using this)
          (fun j hj => by
            have := hfirst (j + 1) (Nat.succ_lt_succ hj)
            simpa [List.get] using this)
        simpa [List.get] using this
      · simp only [Memory.nnLoop, if_neg h1, if_neg hup]
        have := ih k hk m b
          (fun q hq => hnp q (List.mem_cons_of_mem _ hq))
          (by simpa [List.get] using hm)
          (fun j hj => by
            have := hmax (j + 1) (Nat.succ_lt_succ hj)
            simpa [List.get] using this)
          (fun j hj => by
            have := hfirst (j + 1) (Nat.succ_lt_succ hj)
            simpa [List.get] using this)
        simpa [List.get] using this

/-- C4 (amended): for non-empty, length-compatible candidates the in-memory
scan returns the first document attaining the maximum cosine similarity —
ties keep the first-seen maximum, the running maximum being replaced only on
strict `>` — PROVIDED that maximum exceeds the `-1.0` initialization; a
candidate whose similarity is `≤ -1` (e.g. an exactly antipodal vector) can
never be selected. -/
theorem findNearestNeighbor_first_argmax (queryVec : List ℝ) (vectors : List (List ℝ))
    (documents : List Memory.Document) (hlen : vectors.length = documents.length)
    (hcompat : ∀ v ∈ vectors, v.length = queryVec.length)
    (i : ℕ) (hi : i < vectors.length)
    (hgt : -1 < cosineSimilarity queryVec (vectors.get ⟨i, hi⟩))
    (hmax : ∀ (j : ℕ) (hj : j < vectors.length),
      cosineSimilarity queryVec (vectors.get ⟨j, hj⟩) ≤
        cosineSimilarity queryVec (vectors.get ⟨i, hi⟩))
    (hfirst : ∀ (j : ℕ) (hj : j < i),
      cosineSimilarity queryVec (vectors.get ⟨j, hj.trans hi⟩) <
        cosineSimilarity queryVec (vectors.get ⟨i, hi⟩)) :
    Memory.findNearestNeighbor queryVec vectors documents =
      some (Except.ok (documents.get ⟨i, hlen ▸ hi⟩).ID) := by
  have hz : (vectors.zip documents).length = vectors.length := by
    rw [List.length_zip, hlen, Nat.min_self]
  have hne : ¬ vectors.length = 0 := fun h0 => absurd hi (by omega)
  have hget : ∀ (j : ℕ) (hj : j < (vectors.zip documents).length),
      (vectors.zip documents).get ⟨j, hj⟩ =
        (vectors.get ⟨j, hz ▸ hj⟩, documents.get ⟨j, by rw [← hlen]; exact hz ▸ hj⟩) := by
    intro j hj
    simp [List.get_eq_getElem, List.getElem_zip]
  unfold Memory.findNearestNeighbor
  rw [if_neg hne]
  rw [nnLoop_argmax queryVec (vectors.zip documents) i (hz ▸ hi) (-1) ""
    (fun p hp => le_of_eq (hcompat p.1 (List.of_mem_zip hp).1).symm)
    (by rw [hget]; exact hgt)
    (fun j hj => by rw [hget, hget]; exact hmax j (hz ▸ hj))
    (fun j hj => by rw [hget, hget]; exact hfirst j hj)]
  rw [hget]
  rfl

/-- C4 witness. -/
theorem findNearestNeighbor_first_argmax_witness :
    Memory.findNearestNeighbor [1] [[1]] [⟨"doc1", "t", []⟩] = some (Except.ok "doc1") := by
  have h := findNearestNeighbor_first_argmax [1] [[1]] [⟨"doc1", "t", []⟩] rfl
    (by intro v hv; rw [List.mem_singleton] at hv; rw [hv])
    0 (Nat.zero_lt_one)
    (by rw [show ([[1]] : List (List ℝ)).get ⟨0, Nat.zero_lt_one⟩ = [1] from rfl, cos_self_one]
        norm_num)
    (by intro j hj
        have hj1 : j < 1 := by simpa using hj
        have hj0 : j = 0 := by omega
        subst hj0
        exact le_refl _)
    (by intro j hj; exact absurd hj (Nat.not_lt_zero j))
  exact h

/-- C4 counterexample: a single antipodal candidate attains the maximum
similarity, −1, yet the scan returns the empty id (not that document) because
the running maximum starts at −1.0 and is replaced only on strict `>`. -/
theorem findNearestNeighbor_antipodal_counterexample :
    Memory.findNearestNeighbor [1] [[-1]] [⟨"doc1", "t", []⟩] = some (Except.ok "") ∧
      ("" : String) ≠ "doc1" := by
  constructor
  · unfold Memory.findNearestNeighbor
    rw [if_neg (by norm_num)]
    show Option.map Except.ok (Memory.nnLoop [1] [([-1], ⟨"doc1", "t", []⟩)] (-1) "") = _
    unfold Memory.nnLoop
    rw [if_neg (by norm_num), if_neg (by rw [cos_antipodal]; exact lt_irrefl _)]
    rfl
  · decide

theorem queryLoop_all_reject (queryVec : List ℝ) (nf : List (String × GoValue))
    (l : List (String × Pebble.Document)) :
    ∀ m b, (∀ kd ∈ l, Pebble.queryMatches kd.2.Metadata nf = false) →
      Pebble.queryLoop queryVec nf l m b = b := by
  induction l with
  | nil => intro m b _; rfl
  | cons kd rest ih =>
    intro m b hrej
    obtain ⟨k, doc⟩ := kd
    have h1 : ¬ Pebble.queryMatches doc.Metadata nf = true := by
      rw [hrej (k, doc) (List.mem_cons_self _ _)]; decide
    simp only [Pebble.queryLoop, if_neg h1]
    exact ih m b fun q hq => hrej q (List.mem_cons_of_mem _ hq)

/-- C3 (amended, persistent variant): when the embedding call succeeds and no
scanned document passes the metadata filter — in particular when the
collection is empty — the persistent `Query` returns the zero-value document
and no error (the silent no-match outcome); the caller's filter map is left
key-normalized.  (The in-memory variant instead returns a "collection is
empty" error on an empty collection: see the counterexample.) -/
theorem Query_no_match_returns_zero (embed : String → Except String (List ℝ))
    (store : Pebble.Store) (collectionName queryText : String)
    (f : List (String × GoValue)) (queryVec : List ℝ)
    (hE : embed queryText = Except.ok queryVec)
    (hnm : ∀ kd ∈ Pebble.scan store collectionName,
      Pebble.queryMatches kd.2.Metadata (Pebble.normalizeFilter f) = false) :
    Pebble.Query embed store collectionName queryText f =
      ((Pebble.zeroDoc, none), Pebble.normalizeFilter f) := by
  unfold Pebble.Query
  rw [hE]
  show ((Pebble.queryLoop queryVec (Pebble.normalizeFilter f)
      (Pebble.scan store collectionName) (-1) Pebble.zeroDoc, none),
    Pebble.normalizeFilter f) = _
  rw [queryLoop_all_reject _ _ _ _ _ hnm]

/-- C3 witness: a query over an empty store. -/
theorem Query_no_match_returns_zero_witness :
    Pebble.Query (fun _ => Except.ok [1]) [] "c" "q" [] =
      ((Pebble.zeroDoc, none), []) :=
  Query_no_match_returns_zero _ _ _ _ _ [1] rfl
    (by intro kd hkd; simp [Pebble.scan] at hkd)

/-- C3 counterexample: the in-memory variant returns a "collection is empty"
error — not a silent empty result — when the collection is empty. -/
theorem findNearestNeighbor_empty_errors :
    Memory.findNearestNeighbor [1] [] [] = some (Except.error GoError.collectionEmpty) := rfl

/-- C5 (amended, persistent variant): the persistent Query's scan loop ignores
every document whose embedding length differs from the query's (and every
document when the query embedding is empty): removing exactly those documents
from the scanned list leaves the result unchanged, so only length-matching
documents are ever passed to the similarity computation. -/
theorem queryLoop_skips_mismatched (queryVec : List ℝ) (nf : List (String × GoValue))
    (l : List (String × Pebble.Document)) : ∀ (m : ℝ) (b : Pebble.Document),
    Pebble.queryLoop queryVec nf l m b =
      Pebble.queryLoop queryVec nf
        (l.filter fun kd =>
          decide (0 < queryVec.length ∧ queryVec.length = kd.2.Embedding.length)) m b := by
  induction l with
  | nil => intro m b; rfl
  | cons kd rest ih =>
    intro m b
    obtain ⟨k, doc⟩ := kd
    by_cases hlen : 0 < queryVec.length ∧ queryVec.length = doc.Embedding.length
    · rw [List.filter_cons, if_pos (by simpa using hlen)]
      simp only [Pebble.queryLoop]
      split_ifs <;> exact ih _ _
    · rw [List.filter_cons, if_neg (by simpa using hlen)]
      simp only [Pebble.queryLoop]
      split_ifs with h1
      · exact ih _ _
      · exact ih _ _

/-- C5 counterexample: the in-memory `findNearestNeighbor` has no length
guard: with a stored vector shorter than the query vector, the document is not
skipped — `cosineSimilarity` indexes past the stored vector's end and the
program panics (index out of range), modelled by `none`. -/
theorem findNearestNeighbor_mismatch_panics :
    Memory.findNearestNeighbor [1, 0] [[1]] [⟨"doc1", "t", []⟩] = none := by
  unfold Memory.findNearestNeighbor
  rw [if_neg (by norm_num)]
  show Option.map Except.ok (Memory.nnLoop [1, 0] [([1], ⟨"doc1", "t", []⟩)] (-1) "") = _
  unfold Memory.nnLoop
  rw [if_pos (by norm_num)]
  rfl

/-- C1 (amended, persistent variant): when the document key is fresh and the
embedding call fails, the persistent `AddDocument` returns the propagated
error and the store unchanged — no record, neither text nor vector, is
written.  (The in-memory variant violates this: see the counterexample.) -/
theorem AddDocument_embed_fail_no_write (embed : String → Except String (List ℝ))
    (store : Pebble.Store) (collectionName docID text : String)
    (metadata : List (String × GoValue)) (msg : String)
    (hfresh : store.lookup (collectionName ++ ":" ++ docID) = none)
    (hE : embed text = Except.error msg) :
    Pebble.AddDocument embed store collectionName docID text metadata =
      (store, some (GoError.embeddingFailed msg)) := by
  simp only [Pebble.AddDocument]
  rw [hfresh, hE]

/-- C1 witness. -/
theorem AddDocument_embed_fail_no_write_witness :
    Pebble.AddDocument (fun _ => Except.error "boom") [] "c" "d" "t" [] =
      ([], some (GoError.embeddingFailed "boom")) :=
  AddDocument_embed_fail_no_write _ _ _ _ _ _ _ rfl rfl

/-- C1 counterexample: the in-memory `AddDocumentWithMetadata` appends the
document to the collection before calling the embedder, so a failed embedding
returns the error but leaves the document (text, no vector) in the store: the
state after the failed call differs from the state before it. -/
theorem AddDocumentWithMetadata_embed_fail_writes :
    (Memory.AddDocumentWithMetadata (fun _ => Except.error "boom")
        [("c", ⟨"c", [], []⟩)] "c" "d" "t" []).2 = some (GoError.embeddingFailed "boom") ∧
      (Memory.AddDocumentWithMetadata (fun _ => Except.error "boom")
        [("c", ⟨"c", [], []⟩)] "c" "d" "t" []).1 ≠ [("c", ⟨"c", [], []⟩)] := by
  constructor
  · rfl
  · intro hcontra
    have : (⟨"c", [⟨"d", "t", []⟩], []⟩ : Memory.Collection) = ⟨"c", [], []⟩ := by
      have h1 := congrArg (fun db => List.head? db) hcontra
      simpa [Memory.AddDocumentWithMetadata, Memory.setColl] using h1
    have h2 := congrArg (fun c => c.documents.length) this
    simp at h2

/-- C2 (amended, persistent variant): a second `AddDocument` with a key
already present fails with the already-exists error and returns the store
unchanged; the existing record is untouched.  (The in-memory variant performs
no uniqueness check at all: see the counterexample.) -/
theorem AddDocument_duplicate_rejected (embed : String → Except String (List ℝ))
    (store : Pebble.Store) (collectionName docID text : String)
    (metadata : List (String × GoValue)) (d : Pebble.Document)
    (hdup : store.lookup (collectionName ++ ":" ++ docID) = some d) :
    Pebble.AddDocument embed store collectionName docID text metadata =
      (store, some GoError.documentAlreadyExists) := by
  simp only [Pebble.AddDocument]
  rw [hdup]

/-- C2 witness. -/
theorem AddDocument_duplicate_rejected_witness :
    Pebble.AddDocument (fun _ => Except.ok [1]) [("c:d", ⟨"d", "t", [], []⟩)] "c" "d" "t2" [] =
      ([("c:d", ⟨"d", "t", [], []⟩)], some GoError.documentAlreadyExists) :=
  AddDocument_duplicate_rejected _ _ _ _ _ _ ⟨"d", "t", [], []⟩ rfl

/-- C2 counterexample: the in-memory `AddDocument` never checks for an
existing id: a second add of the same (collection, id) succeeds — returning
nil error instead of an already-exists error — and appends a duplicate
record, changing the stored state. -/
theorem AddDocument_duplicate_accepted :
    (Memory.AddDocument (fun _ => Except.ok [])
      ((Memory.AddDocument (fun _ => Except.ok [])
        [("c", ⟨"c", [], []⟩)] "c" "d" "t").1) "c" "d" "t").2 = none ∧
      ((Memory.AddDocument (fun _ => Except.ok [])
        ((Memory.AddDocument (fun _ => Except.ok [])
          [("c", ⟨"c", [], []⟩)] "c" "d" "t").1) "c" "d" "t").1.lookup "c").map
        (fun col => col.documents.length) = some 2 := by
  constructor
  · rfl
  · rfl

/-- C8 (amended): `CreateCollection(name)` fails with the already-exists
error iff the scan over `[name ++ ":", TrimRight(name, ":") ++ ";")` finds at
least one key, and succeeds (with no write — the function never touches the
store) iff it finds none.  For a `name` without trailing colons — i.e. a
fixpoint of `TrimRight(·, ":")` — this range coincides with the
`[name ++ ":", name ++ ";")` stated by the claim. -/
theorem CreateCollection_already_exists_iff (store : Pebble.Store) (name : String)
    (h : Pebble.trimRightColons name = name) :
    (Pebble.CreateCollection store name = some GoError.collectionAlreadyExists ↔
      specRangeHasKey store name = true) ∧
    (Pebble.CreateCollection store name = none ↔ specRangeHasKey store name = false) := by
  unfold Pebble.CreateCollection specRangeHasKey
  rw [h]
  by_cases hx : store.any (fun kd => Pebble.keyLe (name ++ ":") kd.1 && Pebble.keyLt kd.1 (name ++ ";")) = true
  · rw [if_pos hx, hx]
    constructor
    · constructor <;> intro <;> simp
    · constructor <;> intro hc <;> simp_all
  · rw [if_neg hx]
    rw [Bool.not_eq_true] at hx
    rw [hx]
    constructor
    · constructor <;> intro hc <;> simp_all
    · constructor <;> intro <;> rfl

/-- C8 witness. -/
theorem CreateCollection_already_exists_iff_witness :
    (Pebble.CreateCollection [("c:d", ⟨"d", "t", [], []⟩)] "c" =
        some GoError.collectionAlreadyExists ↔
      specRangeHasKey [("c:d", ⟨"d", "t", [], []⟩)] "c" = true) ∧
    (Pebble.CreateCollection [("c:d", ⟨"d", "t", [], []⟩)] "c" = none ↔
      specRangeHasKey [("c:d", ⟨"d", "t", [], []⟩)] "c" = false) :=
  CreateCollection_already_exists_iff _ _ rfl

/-- C8 counterexample: for the collection name `"a:"` the code's upper bound
is `TrimRight("a:", ":") ++ ";" = "a;"`, not the claimed `"a:" ++ ";"`: the
stored key `"a:z"` lies outside the claimed range `["a::", "a:;")`, yet
`CreateCollection` finds it and fails with the already-exists error. -/
theorem CreateCollection_bound_counterexample :
    Pebble.CreateCollection [("a:z", ⟨"z", "t", [], []⟩)] "a:" =
        some GoError.collectionAlreadyExists ∧
      specRangeHasKey [("a:z", ⟨"z", "t", [], []⟩)] "a:" = false := by
  constructor
  · rfl
  · rfl

theorem char_isUpper_toNat {c : Char} (h : c.isUpper = true) :
    65 ≤ c.toNat ∧ c.toNat ≤ 90 := by
  rw [Char.isUpper, Bool.and_eq_true, decide_eq_true_eq, decide_eq_true_eq] at h
  obtain ⟨h1, h2⟩ := h
  have h1' : (65 : UInt32) ≤ c.val := h1
  have h2' : c.val ≤ (90 : UInt32) := h2
  rw [UInt32.le_def, BitVec.le_def] at h1' h2'
  constructor
  · calc (65 : Nat) = (65 : UInt32).toBitVec.toNat := by decide
      _ ≤ c.val.toBitVec.toNat := h1'
  · calc c.toNat = c.val.toBitVec.toNat := rfl
      _ ≤ (90 : UInt32).toBitVec.toNat := h2'
      _ = 90 := by decide

theorem char_toNat_ofNat {n : Nat} (h : n < 55296) : (Char.ofNat n).toNat = n := by
  rw [Char.ofNat, dif_pos (Or.inl h)]
  rfl

theorem char_toLower_eq_of_isUpper {c : Char} (h : 65 ≤ c.toNat ∧ c.toNat ≤ 90) :
    Char.toLower c = Char.ofNat (c.toNat + 32) := by
  rw [Char.toLower, if_pos ⟨h.1, h.2⟩]

theorem char_toLower_ne_of_isUpper {c : Char} (h : c.isUpper = true) :
    Char.toLower c ≠ c := by
  obtain ⟨h1, h2⟩ := char_isUpper_toNat h
  intro hcontra
  have heq := char_toLower_eq_of_isUpper ⟨h1, h2⟩
  have := congrArg Char.toNat (heq.symm.trans hcontra)
  rw [char_toNat_ofNat (by omega)] at this
  omega

theorem char_toLower_idem (c : Char) : Char.toLower (Char.toLower c) = Char.toLower c := by
  by_cases h : 65 ≤ c.toNat ∧ c.toNat ≤ 90
  · rw [char_toLower_eq_of_isUpper h]
    rw [Char.toLower, if_neg (by rw [char_toNat_ofNat (by omega)]; omega)]
  · have hcc : Char.toLower c = c := by
      rw [Char.toLower, if_neg (fun hcon => h ⟨hcon.1, hcon.2⟩)]
    rw [hcc]
    exact hcc

theorem list_map_eq_self {α : Type} {f : α → α} :
    ∀ {l : List α}, l.map f = l → ∀ a ∈ l, f a = a := by
  intro l
  induction l with
  | nil => intro _ a ha; cases ha
  | cons x xs ih =>
    intro h a ha
    rw [List.map_cons, List.cons.injEq] at h
    rcases List.mem_cons.mp ha with rfl | hmem
    · exact h.1
    · exact ih h.2 a hmem

theorem toLowerStr_idem (s : String) : toLowerStr (toLowerStr s) = toLowerStr s := by
  apply String.ext
  show (s.data.map Char.toLower).map Char.toLower = s.data.map Char.toLower
  rw [List.map_map]
  exact List.map_congr_left fun c _ => char_toLower_idem c

theorem toLowerStr_ne_of_upper {s : String} {c : Char} (hc : c ∈ s.data)
    (hu : c.isUpper = true) : toLowerStr s ≠ s := by
  intro hcontra
  have hdata : s.data.map Char.toLower = s.data := congrArg String.data hcontra
  exact char_toLower_ne_of_isUpper hu (list_map_eq_self hdata c hc)

/-- C6 (amended): in the persistent Query's matcher, filter keys are
lower-cased before comparison — replacing the filter by its key-normalized
form never changes the outcome, the document-metadata lookup being performed
under the lower-cased key — while filter VALUES are compared by exact,
case-sensitive equality (witnessed by values differing only in case failing
to match).  The in-memory `matchesMetadataFilter` performs no such
normalization: see the counterexample. -/
theorem queryMatches_key_normalization :
    (∀ (m f : List (String × GoValue)),
      Pebble.queryMatches m f = Pebble.queryMatches m (Pebble.normalizeFilter f)) ∧
    Pebble.queryMatches [("k", GoValue.str "X")] [("k", GoValue.str "x")] = false := by
  constructor
  · intro m f
    unfold Pebble.queryMatches Pebble.normalizeFilter
    rw [List.all_map]
    congr 1
    funext kv
    show (match m.lookup (toLowerStr kv.1) with
      | none => false
      | some v => v == kv.2) =
      (match m.lookup (toLowerStr (toLowerStr kv.1)) with
      | none => false
      | some v => v == kv.2)
    rw [toLowerStr_idem]
  · decide

/-- C6 counterexample: the in-memory matcher used by the in-memory query path
compares filter keys verbatim: the filter key "Source" fails against document
metadata keyed "source", although the key-normalized filter matches — so on
this path filter keys are NOT lower-cased before comparison. -/
theorem matchesMetadataFilter_no_normalization :
    Memory.matchesMetadataFilter [("source", GoValue.str "x")]
        [("Source", GoValue.str "x")] = false ∧
      Memory.matchesMetadataFilter [("source", GoValue.str "x")]
        (Pebble.normalizeFilter [("Source", GoValue.str "x")]) = true := by
  constructor
  · decide
  · decide

/-- C7 (amended): the standalone matcher `matchesMetadataFilter` rejects
whenever some filter key is absent from the metadata map; the persistent
Query's inline matcher rejects whenever some LOWER-CASED filter key is absent
(a key absent verbatim but present lower-cased can still match there: see the
counterexample). -/
theorem matchers_reject_absent_key :
    (∀ (m f : List (String × GoValue)), (∃ kv ∈ f, m.lookup kv.1 = none) →
      Memory.matchesMetadataFilter m f = false) ∧
    (∀ (m f : List (String × GoValue)), (∃ kv ∈ f, m.lookup (toLowerStr kv.1) = none) →
      Pebble.queryMatches m f = false) := by
  constructor
  · rintro m f ⟨kv, hmem, hnone⟩
    unfold Memory.matchesMetadataFilter
    rw [List.all_eq_false]
    exact ⟨kv, hmem, by rw [hnone]; exact Bool.false_ne_true⟩
  · rintro m f ⟨kv, hmem, hnone⟩
    unfold Pebble.queryMatches
    rw [List.all_eq_false]
    exact ⟨kv, hmem, by rw [hnone]; exact Bool.false_ne_true⟩

/-- C7 witness. -/
theorem matchers_reject_absent_key_witness :
    Memory.matchesMetadataFilter [] [("a", GoValue.str "x")] = false ∧
      Pebble.queryMatches [] [("a", GoValue.str "x")] = false :=
  ⟨matchers_reject_absent_key.1 _ _ ⟨("a", GoValue.str "x"), by decide, rfl⟩,
   matchers_reject_absent_key.2 _ _ ⟨("a", GoValue.str "x"), by decide, rfl⟩⟩

/-- C7 counterexample: the filter key "Source" is absent from the metadata
map (which has only "source"), yet the persistent Query's matcher accepts the
document, because the lookup is performed under the lower-cased key. -/
theorem queryMatches_absent_key_accepts :
    Pebble.queryMatches [("source", GoValue.str "x")]
        [("Source", GoValue.str "x")] = true ∧
      (List.lookup "Source" [("source", GoValue.str "x")]) = none := by
  constructor
  · decide
  · decide

/-- C10: when the embedding call succeeds, the persistent Query leaves the
caller's metadataFilter map re-keyed: every entry now sits under its
lower-cased key, so the map differs from the one passed in whenever any
filter key contains an upper-case letter. -/
theorem Query_mutates_filter (embed : String → Except String (List ℝ))
    (store : Pebble.Store) (collectionName queryText : String)
    (f : List (String × GoValue)) (queryVec : List ℝ)
    (hE : embed queryText = Except.ok queryVec) :
    (Pebble.Query embed store collectionName queryText f).2 = Pebble.normalizeFilter f ∧
      ((∃ kv ∈ f, ∃ ch ∈ kv.1.data, ch.isUpper = true) →
        (Pebble.Query embed store collectionName queryText f).2 ≠ f) := by
  have h2 : (Pebble.Query embed store collectionName queryText f).2 =
      Pebble.normalizeFilter f := by
    unfold Pebble.Query
    rw [hE]
  refine ⟨h2, ?_⟩
  rintro ⟨kv, hmem, ch, hch, hu⟩ hcontra
  rw [h2] at hcontra
  unfold Pebble.normalizeFilter at hcontra
  have hfix : (toLowerStr kv.1, kv.2) = kv :=
    list_map_eq_self hcontra kv hmem
  exact toLowerStr_ne_of_upper hch hu (congrArg Prod.fst hfix)

/-- C10 witness. -/
theorem Query_mutates_filter_witness :
    (Pebble.Query (fun _ => Except.ok [1]) [] "c" "q" [("A", GoValue.str "v")]).2 ≠
      [("A", GoValue.str "v")] :=
  (Query_mutates_filter _ _ _ _ _ [1] rfl).2
    ⟨("A", GoValue.str "v"), by decide, 'A', by decide, by decide⟩
